import Mathlib

/-!
Verification of the asynchronous log-replay load tester (`load_tester.py`).

The program replays a captured sequence of timestamped request events against
a live service, pacing the replay with a speed multiplier, cycling the log
when it is exhausted, enforcing a wall-clock run budget, and accumulating
per-response statistics.

The definitions below are shallow embeddings of the corresponding Python
functions.  Instants and durations are rationals measured in seconds;
`datetime.datetime.min` (the sentinel stored in `log_initial_time` by
`LoadTester.__init__`) is the rational constant `datetimeMin`; Python
attributes that may be `None` are `Option`s; code paths that raise an
exception are modelled as `none` or `Except.error`.
-/

namespace LoadReplay

/-- `datetime.datetime.min` rendered as seconds relative to the Unix epoch
(0001-01-01 is 62135596800 seconds before 1970-01-01).  It is the sentinel
`LoadTester.__init__` stores in `log_initial_time`; only the fact that real
log timestamps differ from it matters. -/
def datetimeMin : ℚ := -62135596800

/-- The timeline-related mutable attributes of `LoadTester`:
`speed_multiplier`, `log_initial_time` (sentinel `datetime.datetime.min`),
`real_initial_time` (initialised to `None`, hence an `Option`) and
`log_delta_time` (sentinel `timedelta(0)`). -/
structure TimelineState where
  speed_multiplier : ℚ
  log_initial_time : ℚ
  real_initial_time : Option ℚ
  log_delta_time : ℚ
deriving DecidableEq

/-- `LoadTester._get_sleep_time(log_time)`.  `now` is the value
`datetime.datetime.now()` returns during the call.  Returns the updated
state (the method lazily initialises `log_initial_time` on the first call)
and the computed sleep time.  `none` models the `TypeError` Python would
raise on `real_time - None` were `real_initial_time` still unset. -/
def getSleepTime (s : TimelineState) (log_time now : ℚ) :
    Option (TimelineState × ℚ) :=
  let s1 := if s.log_initial_time = datetimeMin
    then { s with log_initial_time := log_time } else s
  match s1.real_initial_time with
  | none => none
  | some rit =>
    let log_time_passed_secs := log_time - s1.log_initial_time
    let scaled_time_passed := (now - rit) * s1.speed_multiplier
    let scaled_time_till_next_event := log_time_passed_secs - scaled_time_passed
    some (s1, scaled_time_till_next_event / s1.speed_multiplier)

/-- C1: with `log_initial_time` and `real_initial_time` already set and a
strictly positive speed multiplier `m`, `_get_sleep_time` leaves the state
unchanged and returns `((t - log_origin) - (now - replay_start) * m) / m`;
equivalently the sleep ends exactly at `replay_start + (t - log_origin)/m`,
and the result is negative precisely when that scheduled instant is already
in the past (the replay is behind schedule). -/
theorem getSleepTime_formula (s : TimelineState) (t now rs : ℚ)
    (ho : s.log_initial_time ≠ datetimeMin)
    (hr : s.real_initial_time = some rs)
    (hm : 0 < s.speed_multiplier) :
    getSleepTime s t now
      = some (s, ((t - s.log_initial_time) - (now - rs) * s.speed_multiplier)
                  / s.speed_multiplier)
    ∧ ((t - s.log_initial_time) - (now - rs) * s.speed_multiplier)
          / s.speed_multiplier
        = (t - s.log_initial_time) / s.speed_multiplier - (now - rs)
    ∧ now + ((t - s.log_initial_time) - (now - rs) * s.speed_multiplier)
          / s.speed_multiplier
        = rs + (t - s.log_initial_time) / s.speed_multiplier
    ∧ (((t - s.log_initial_time) - (now - rs) * s.speed_multiplier)
          / s.speed_multiplier < 0
        ↔ rs + (t - s.log_initial_time) / s.speed_multiplier < now) := by
  have hm0 : s.speed_multiplier ≠ 0 := ne_of_gt hm
  have key : ((t - s.log_initial_time) - (now - rs) * s.speed_multiplier)
        / s.speed_multiplier
      = (t - s.log_initial_time) / s.speed_multiplier - (now - rs) := by
    field_simp
    ring
  refine ⟨?_, key, ?_, ?_⟩
  · simp only [getSleepTime, if_neg ho, hr]
  · rw [key]; ring
  · rw [key]
    constructor
    · intro h; linarith
    · intro h; linarith

/-- Witness for C1 at a concrete input: state with origin `5`,
replay start `100`, multiplier `1`, event timestamp `8`, current time
`102`. -/
theorem getSleepTime_formula_witness :
    (5 : ℚ) ≠ datetimeMin ∧ (0 : ℚ) < 1 ∧
    (getSleepTime ⟨1, 5, some 100, 0⟩ 8 102
        = some (⟨1, 5, some 100, 0⟩, ((8 - 5) - (102 - 100) * 1) / 1)
      ∧ ((8 : ℚ) - 5 - (102 - 100) * 1) / 1 = (8 - 5) / 1 - (102 - 100)
      ∧ (102 : ℚ) + ((8 - 5) - (102 - 100) * 1) / 1 = 100 + (8 - 5) / 1
      ∧ (((8 : ℚ) - 5 - (102 - 100) * 1) / 1 < 0
          ↔ (100 : ℚ) + (8 - 5) / 1 < 102)) :=
  ⟨by decide, by decide,
    getSleepTime_formula ⟨1, 5, some 100, 0⟩ 8 102 100 (by decide) rfl
      (by decide)⟩

/-- Evaluation of `_get_sleep_time` when `log_initial_time` is already set
(not the sentinel) and `real_initial_time` is set: the state is unchanged
and the literal expression of the Python function is returned. -/
lemma getSleepTime_eq_of_set (s : TimelineState) (t now rs : ℚ)
    (ho : s.log_initial_time ≠ datetimeMin)
    (hr : s.real_initial_time = some rs) :
    getSleepTime s t now
      = some (s, ((t - s.log_initial_time) - (now - rs) * s.speed_multiplier)
                  / s.speed_multiplier) := by
  simp only [getSleepTime, if_neg ho, hr]

/-- The timeline fields exactly as `LoadTester.__init__` initialises them:
`log_initial_time = datetime.min`, `real_initial_time = None`,
`log_delta_time = timedelta(0)`. -/
def initialTimeline (m : ℚ) : TimelineState := ⟨m, datetimeMin, none, 0⟩

/-- The cycle-boundary header of `LoadTester._requests`: the statements run
each time the `while True` loop makes a fresh `request_generator`, before
the inner `for` loop.  `lastReqTs` is the timestamp of the Python variable
`request` left over from the previous cycle's `for` loop (`none` when no
request was ever bound, in which case Python raises `NameError`, modelled
as `none`); `now` is `datetime.datetime.now()`. -/
def cycleStart (s : TimelineState) (lastReqTs : Option ℚ) (now : ℚ) :
    Option TimelineState :=
  match s.real_initial_time with
  | none =>
    let s1 := { s with real_initial_time := some now }
    some { s1 with log_initial_time := s1.log_initial_time - s1.log_delta_time }
  | some _ =>
    if s.log_delta_time = 0 then
      match lastReqTs with
      | none => none
      | some ts =>
        let s1 := { s with log_delta_time := ts - s.log_initial_time }
        some { s1 with
          log_initial_time := s1.log_initial_time - s1.log_delta_time }
    else
      some { s with log_initial_time := s.log_initial_time - s.log_delta_time }

/-- The inner `for request in request_generator` loop of
`LoadTester._requests`, restricted to its timeline effect: each yielded
request carries `sleep_time = self._get_sleep_time(request.timestamp)`.
An event is a pair `(timestamp, now)` where `now` is the clock reading
during that call.  Returns the final state and the yielded sleep times. -/
def processEvents : TimelineState → List (ℚ × ℚ) →
    Option (TimelineState × List ℚ)
  | s, [] => some (s, [])
  | s, (t, now) :: rest =>
    match getSleepTime s t now with
    | none => none
    | some (s1, sl) =>
      match processEvents s1 rest with
      | none => none
      | some (s2, sls) => some (s2, sl :: sls)

/-- Once `log_initial_time` is genuinely set, a whole cycle of
`_get_sleep_time` calls leaves the timeline state unchanged. -/
lemma processEvents_of_set (s : TimelineState) (events : List (ℚ × ℚ))
    (rs : ℚ) (ho : s.log_initial_time ≠ datetimeMin)
    (hr : s.real_initial_time = some rs) :
    ∃ sls, processEvents s events = some (s, sls) := by
  induction events with
  | nil => exact ⟨[], rfl⟩
  | cons p rest ih =>
    obtain ⟨sls, h⟩ := ih
    refine ⟨((p.1 - s.log_initial_time) - (p.2 - rs) * s.speed_multiplier)
        / s.speed_multiplier :: sls, ?_⟩
    obtain ⟨t, now⟩ := p
    simp [processEvents, getSleepTime_eq_of_set s t now rs ho hr, h]

/-- The timeline state in force when the first event of the second cycle is
processed: `_requests` runs its cycle header, yields every event of the
first pass, then runs the header again (where `log_delta_time` is computed
from the leftover `request` and `log_initial_time` is shifted backward). -/
def secondCycleState (m now0 : ℚ) (cycle1 : List (ℚ × ℚ)) (now1 : ℚ) :
    Option TimelineState := do
  let s1 ← cycleStart (initialTimeline m) none now0
  let (s2, _) ← processEvents s1 cycle1
  cycleStart s2 (cycle1.getLast?.map Prod.fst) now1

/-- The sleep time `_requests` computes for the first event of the second
cycle (the source restarts, so that event carries the same timestamp as the
first event of the first cycle); `now2` is the clock reading during the
call. -/
def secondCycleFirstSleep (m now0 : ℚ) (cycle1 : List (ℚ × ℚ))
    (now1 now2 : ℚ) : Option ℚ := do
  let s3 ← secondCycleState m now0 cycle1 now1
  let t2 := (cycle1.head?.map Prod.fst).getD 0
  let (_, sl) ← getSleepTime s3 t2 now2
  pure sl

/-- C2: for a first cycle with events starting at `t0` and ending at
`tlast` (duration `D = tlast - t0`), the cycle header of the second cycle
sets `log_delta_time` to `tlast - t0` (last event timestamp of the previous
cycle minus that cycle's origin) and shifts `log_initial_time` backward by
it; consequently the sleep time computed for the first event of the second
cycle is exactly the sleep time `_get_sleep_time` would have computed, with
the origin left at `t0`, for a virtual event at timestamp `t0 + D` — the
log continued linearly past `D`, with no jump at the wrap boundary. -/
theorem cycle_continuity (m now0 t0 n0 now1 now2 tlast nlast : ℚ)
    (rest : List (ℚ × ℚ))
    (hlast : ((t0, n0) :: rest).getLast? = some (tlast, nlast))
    (ht0 : t0 ≠ datetimeMin)
    (hshift : t0 - (tlast - t0) ≠ datetimeMin) :
    secondCycleState m now0 ((t0, n0) :: rest) now1
      = some ⟨m, t0 - (tlast - t0), some now0, tlast - t0⟩
    ∧ secondCycleFirstSleep m now0 ((t0, n0) :: rest) now1 now2
      = (getSleepTime ⟨m, t0, some now0, 0⟩ (t0 + (tlast - t0)) now2).map
          Prod.snd := by
  have hA : cycleStart (initialTimeline m) none now0
      = some ⟨m, datetimeMin, some now0, 0⟩ := by
    simp [cycleStart, initialTimeline]
  have hFirst : getSleepTime ⟨m, datetimeMin, some now0, 0⟩ t0 n0
      = some (⟨m, t0, some now0, 0⟩,
          ((t0 - t0) - (n0 - now0) * m) / m) := by
    simp [getSleepTime]
  obtain ⟨sls, hRest⟩ :=
    processEvents_of_set ⟨m, t0, some now0, 0⟩ rest now0 ht0 rfl
  have hB : processEvents ⟨m, datetimeMin, some now0, 0⟩ ((t0, n0) :: rest)
      = some (⟨m, t0, some now0, 0⟩,
          (((t0 - t0) - (n0 - now0) * m) / m) :: sls) := by
    simp [processEvents, hFirst, hRest]
  have hC : cycleStart ⟨m, t0, some now0, 0⟩ (some tlast) now1
      = some ⟨m, t0 - (tlast - t0), some now0, tlast - t0⟩ := by
    simp [cycleStart]
  have hState : secondCycleState m now0 ((t0, n0) :: rest) now1
      = some ⟨m, t0 - (tlast - t0), some now0, tlast - t0⟩ := by
    simp only [secondCycleState, hA, Option.bind_eq_bind, Option.some_bind,
      hB, hlast, Option.map_some]
    exact hC
  refine ⟨hState, ?_⟩
  have hL : getSleepTime ⟨m, t0 - (tlast - t0), some now0, tlast - t0⟩ t0 now2
      = some (⟨m, t0 - (tlast - t0), some now0, tlast - t0⟩,
          ((t0 - (t0 - (tlast - t0))) - (now2 - now0) * m) / m) :=
    getSleepTime_eq_of_set _ t0 now2 now0 hshift rfl
  have hR : getSleepTime ⟨m, t0, some now0, 0⟩ (t0 + (tlast - t0)) now2
      = some (⟨m, t0, some now0, 0⟩,
          (((t0 + (tlast - t0)) - t0) - (now2 - now0) * m) / m) :=
    getSleepTime_eq_of_set _ (t0 + (tlast - t0)) now2 now0 ht0 rfl
  have hval : (t0 - (t0 - (tlast - t0))) = ((t0 + (tlast - t0)) - t0) := by
    ring
  simp only [secondCycleFirstSleep, hState, Option.bind_eq_bind,
    Option.some_bind, List.head?_cons, Option.map_some', Option.getD_some,
    hL, hR, Option.pure_def]
  rw [hval]

/-- Witness for C2: first cycle `[(10, 0), (14, 1)]` (so `t0 = 10`,
`tlast = 14`, duration `4`), multiplier `1`, replay start `0`. -/
theorem cycle_continuity_witness :
    ([((10 : ℚ), (0 : ℚ)), (14, 1)].getLast? = some (14, 1)
      ∧ (10 : ℚ) ≠ datetimeMin ∧ (10 : ℚ) - (14 - 10) ≠ datetimeMin) ∧
    (secondCycleState 1 0 [((10 : ℚ), (0 : ℚ)), (14, 1)] 2
        = some ⟨1, 10 - (14 - 10), some 0, 14 - 10⟩
      ∧ secondCycleFirstSleep 1 0 [((10 : ℚ), (0 : ℚ)), (14, 1)] 2 3
        = (getSleepTime ⟨1, 10, some 0, 0⟩ (10 + (14 - 10)) 3).map
            Prod.snd) :=
  ⟨⟨by decide, by decide, by norm_num [datetimeMin]⟩,
    cycle_continuity 1 0 10 0 2 3 14 1 [(14, 1)] (by decide) (by decide)
      (by norm_num [datetimeMin])⟩

/-- The observable outcome of the `RUNNING` loop in `LoadTester.run`
(`for request in self._requests(): ...`).  Wall-clock time is idealised:
it advances exactly by the amount actually slept, and `asyncio.sleep` of a
negative duration takes zero wall time. -/
structure RunLoopResult where
  finalElapsed : ℚ
  lastDelta : Option ℚ
  numSent : ℕ
  dispatches : List ℚ
  lastReq : Option ℚ
  budgetHit : Bool
deriving DecidableEq

/-- The `RUNNING` loop of `LoadTester.run`, driven by the stream of
`sleep_time` values of the successively pulled requests (`B` is
`run_time_secs`).  Each iteration: measure `delta_secs`, `break` if
`delta_secs >= run_time_secs`, otherwise
`await asyncio.sleep(min(request.sleep_time, run_time_secs - delta_secs))`,
increment `num_sent_requests` and dispatch the request with
`ensure_future`.  The result records the elapsed time at loop exit, the
last value assigned to `delta_secs` (`none` if the body never ran), the
final `num_sent_requests`, the elapsed time of every dispatch, the
`sleep_time` of the last request bound by the `for` statement, and whether
the loop exited through the `break`. -/
def runLoop (B : ℚ) : List ℚ → ℚ → ℕ → Option ℚ → Option ℚ → RunLoopResult
  | [], e, sent, ld, lr => ⟨e, ld, sent, [], lr, false⟩
  | st :: rest, e, sent, _, _ =>
    if B ≤ e then ⟨e, some e, sent, [], some st, true⟩
    else
      let e2 := e + max (min st (B - e)) 0
      let r := runLoop B rest e2 (sent + 1) (some e) (some st)
      { r with dispatches := e2 :: r.dispatches }

/-- Every dispatch performed by the loop happens at elapsed time at most
`B`: the pre-sleep check guarantees `delta_secs < B` and the sleep is
capped at `B - delta_secs`. -/
lemma runLoop_dispatch_le (B : ℚ) (reqs : List ℚ) :
    ∀ e sent ld lr, ∀ d ∈ (runLoop B reqs e sent ld lr).dispatches, d ≤ B := by
  induction reqs with
  | nil =>
    intro e sent ld lr d hd
    simp [runLoop] at hd
  | cons st rest ih =>
    intro e sent ld lr d hd
    by_cases hB : B ≤ e
    · simp [runLoop, if_pos hB] at hd
    · simp only [runLoop, if_neg hB] at hd
      rcases List.mem_cons.mp hd with h | h
      · have h0 : ¬ B ≤ e := hB
        have h1 : max (min st (B - e)) 0 ≤ B - e := by
          apply max_le (le_trans (min_le_right _ _) le_rfl)
          linarith [not_le.mp h0]
        rw [h]
        linarith
      · exact ih _ _ _ _ d h

/-- The loop sends exactly one request per recorded dispatch. -/
lemma runLoop_sent_eq_dispatches (B : ℚ) (reqs : List ℚ) :
    ∀ e sent ld lr, (runLoop B reqs e sent ld lr).numSent
      = sent + (runLoop B reqs e sent ld lr).dispatches.length := by
  induction reqs with
  | nil => intro e sent ld lr; simp [runLoop]
  | cons st rest ih =>
    intro e sent ld lr
    by_cases hB : B ≤ e
    · simp [runLoop, if_pos hB]
    · simp only [runLoop, if_neg hB, List.length_cons]
      rw [ih]
      omega

/-- C3: with a wall-clock budget of `B` seconds, every request the loop
dispatches is dispatched at elapsed time at most `B` (so no new request is
dispatched once elapsed time exceeds `B`), and whenever the pre-dispatch
check finds the budget exhausted (`delta_secs >= run_time_secs`) the loop
immediately breaks to the draining phase, dispatching nothing further. -/
theorem budget_enforcement (B : ℚ) (reqs : List ℚ) :
    (∀ d ∈ (runLoop B reqs 0 0 none none).dispatches, d ≤ B)
    ∧ ∀ (st : ℚ) (rest : List ℚ) (e : ℚ) (sent : ℕ) (ld lr : Option ℚ),
        B ≤ e →
        runLoop B (st :: rest) e sent ld lr
          = ⟨e, some e, sent, [], some st, true⟩ := by
  refine ⟨runLoop_dispatch_le B reqs 0 0 none none, ?_⟩
  intro st rest e sent ld lr hB
  simp [runLoop, if_pos hB]

/-- Witness for C3: with budget `10` and sleep times `[9, 5]` the second
dispatch happens exactly at elapsed time `10 ≤ 10`; and a loop iteration
reached at elapsed time `10 ≥ 10` breaks without dispatching. -/
theorem budget_enforcement_witness :
    ((10 : ℚ) ∈ (runLoop 10 [9, 5] 0 0 none none).dispatches
      ∧ (10 : ℚ) ≤ 10)
    ∧ ((10 : ℚ) ≤ 10
      ∧ runLoop 10 [7] 10 3 none none = ⟨10, some 10, 3, [], some 7, true⟩) := by
  have hmem : (10 : ℚ) ∈ (runLoop 10 [9, 5] 0 0 none none).dispatches := by
    norm_num [runLoop]
  exact ⟨⟨hmem, (budget_enforcement 10 [9, 5]).1 10 hmem⟩,
    ⟨by norm_num, (budget_enforcement 10 [7]).2 7 [] 10 3 none none (by norm_num)⟩⟩

/-- Modelled from the claim's words (C4), for comparison with `runLoop`:
in each iteration the controller pulls the next event, clamps a negative
sleep duration to zero, sleeps, **then** checks `elapsed >= budget`; on
exhaustion it transitions to draining without dispatching that event,
otherwise it dispatches and continues.  Returns the number of dispatched
events and their dispatch times. -/
def claimedRunLoop (B : ℚ) : List ℚ → ℚ → ℕ → ℕ × List ℚ
  | [], _, sent => (sent, [])
  | st :: rest, e, sent =>
    let e2 := e + max st 0
    if B ≤ e2 then (sent, [])
    else
      let r := claimedRunLoop B rest e2 (sent + 1)
      (r.1, e2 :: r.2)

/-- C4 formalised as stated: the loop body of `LoadTester.run` behaves, in
dispatch count and dispatch times, like the pull/clamp/sleep/check/dispatch
order the claim describes. -/
def runLoopOrderClaim : Prop :=
  ∀ (B : ℚ) (reqs : List ℚ),
    (runLoop B reqs 0 0 none none).numSent = (claimedRunLoop B reqs 0 0).1
    ∧ (runLoop B reqs 0 0 none none).dispatches = (claimedRunLoop B reqs 0 0).2

/-- C4 is false on the code: with budget `10` and sleep times `[9, 5]` the
real loop (which checks the budget *before* sleeping and caps the sleep at
the remaining budget) dispatches both events, while the claimed
sleep-then-check order would drain after the second sleep overruns the
budget and dispatch only one. -/
theorem loop_order_counterexample : ¬ runLoopOrderClaim := by
  intro h
  have h1 : (runLoop 10 [9, 5] 0 0 none none).numSent = 2 := by
    norm_num [runLoop]
  have h2 : (claimedRunLoop 10 [9, 5] 0 0).1 = 1 := by
    norm_num [claimedRunLoop]
  have := (h 10 [9, 5]).1
  rw [h1, h2] at this
  exact absurd this (by decide)

/-- C4 amended: in every iteration the controller pulls the next event
(its sleep duration was computed by the Timeline at pull time), **first**
checks `elapsed >= budget` and, if exhausted, transitions to draining
without sleeping or dispatching that event; otherwise it sleeps for
`min(sleep_duration, budget - elapsed)` (a negative value sleeps zero wall
time — there is no explicit clamping to zero), then dispatches the event
unconditionally and continues; each dispatch adds exactly one to the sent
count. -/
theorem loop_order_amended (B st : ℚ) (rest : List ℚ) (e : ℚ) (sent : ℕ)
    (ld lr : Option ℚ) :
    (B ≤ e →
      runLoop B (st :: rest) e sent ld lr
        = ⟨e, some e, sent, [], some st, true⟩)
    ∧ (e < B →
      runLoop B (st :: rest) e sent ld lr
        = { runLoop B rest (e + max (min st (B - e)) 0) (sent + 1)
              (some e) (some st) with
            dispatches := (e + max (min st (B - e)) 0)
              :: (runLoop B rest (e + max (min st (B - e)) 0) (sent + 1)
                    (some e) (some st)).dispatches })
    ∧ (runLoop B (st :: rest) e sent ld lr).numSent
        = sent + (runLoop B (st :: rest) e sent ld lr).dispatches.length := by
  refine ⟨?_, ?_, runLoop_sent_eq_dispatches B (st :: rest) e sent ld lr⟩
  · intro hB
    simp [runLoop, if_pos hB]
  · intro hB
    simp [runLoop, if_neg (not_le.mpr hB)]

/-- Witness for C4's amended theorem: an iteration reached with the budget
already exhausted (`10 ≤ 10`) breaks at once without dispatching. -/
theorem loop_order_amended_witness :
    (10 : ℚ) ≤ 10
    ∧ runLoop 10 [7] 10 3 none none = ⟨10, some 10, 3, [], some 7, true⟩ :=
  ⟨by norm_num,
    (loop_order_amended 10 7 [] 10 3 none none).1 (by norm_num)⟩

/-- The dictionary `LoadTester.run` returns after draining. -/
structure RunStats where
  run_time_minutes : ℚ
  num_sent_requests : ℕ
  average_requests_per_second : ℚ
  num_outstanding_requests : ℕ
  seconds_behind : ℚ
  percentage_behind : ℚ
deriving DecidableEq

/-- `LoadTester.run(run_time_minutes)`: run the `RUNNING` loop with budget
`run_time_minutes * 60` seconds over the stream of pulled sleep times,
then (after cancelling the `numPending` still-pending tasks) assemble the
result dictionary.  `none` models the `NameError` on `request` /
`delta_secs` when the loop body never ran, and the `ZeroDivisionError` in
`num_sent_requests / delta_secs` when `delta_secs` is zero. -/
def runModel (runTimeMinutes : ℚ) (reqs : List ℚ) (numPending : ℕ) :
    Option RunStats :=
  let B := runTimeMinutes * 60
  let r := runLoop B reqs 0 0 none none
  match r.lastReq, r.lastDelta with
  | some lastSt, some delta =>
    if delta = 0 then none
    else
      let seconds_behind := max (-lastSt) 0
      some ⟨delta / 60, r.numSent, (r.numSent : ℚ) / delta, numPending,
            seconds_behind, seconds_behind / delta⟩
  | _, _ => none

/-- C9: whenever `run` returns statistics, they satisfy
`seconds_behind = max(-last_sleep_duration, 0)` (the sleep time of the last
pulled request), `percentage_behind = seconds_behind / elapsed_seconds`
with no clamping to `[0, 1]`, `run_time_minutes = elapsed_seconds / 60`,
`num_sent_requests` equal to the loop's sent count,
`average_requests_per_second = sent / elapsed_seconds`, and the count of
still-outstanding handles at cutoff.  The final conjunct exhibits a run
whose `percentage_behind` is `5 > 1`: the value really is not clamped. -/
theorem run_stats_formulas (rtm : ℚ) (reqs : List ℚ) (numPending : ℕ)
    (stats : RunStats) (delta lastSt : ℚ)
    (h : runModel rtm reqs numPending = some stats)
    (hld : (runLoop (rtm * 60) reqs 0 0 none none).lastDelta = some delta)
    (hlr : (runLoop (rtm * 60) reqs 0 0 none none).lastReq = some lastSt) :
    (delta ≠ 0
      ∧ stats.seconds_behind = max (-lastSt) 0
      ∧ stats.percentage_behind = stats.seconds_behind / delta
      ∧ stats.run_time_minutes = delta / 60
      ∧ stats.num_sent_requests = (runLoop (rtm * 60) reqs 0 0 none none).numSent
      ∧ stats.average_requests_per_second
          = (stats.num_sent_requests : ℚ) / delta
      ∧ stats.num_outstanding_requests = numPending)
    ∧ (runModel (1/60) [1, -5] 0).map (fun st => st.percentage_behind)
        = some 5 ∧ (1 : ℚ) < 5 := by
  refine ⟨?_, by norm_num [runModel, runLoop], by norm_num⟩
  by_cases hz : delta = 0
  · exfalso
    simp only [runModel, hlr, hld, if_pos hz] at h
    exact Option.noConfusion h
  · refine ⟨hz, ?_⟩
    simp only [runModel, hlr, hld, if_neg hz, Option.some_inj] at h
    rw [← h]
    exact ⟨rfl, rfl, rfl, rfl, rfl, rfl⟩

/-- Witness for C9 at the concrete run with budget one second, sleep-time
stream `[1, -5]` and no pending tasks: the loop dispatches one request at
elapsed `1`, then breaks holding the undispatched request whose sleep time
was `-5`, so the stats read five seconds (500%) behind. -/
theorem run_stats_formulas_witness :
    (runModel (1/60) [1, -5] 0 = some ⟨1/60, 1, 1, 0, 5, 5⟩
      ∧ (runLoop ((1/60) * 60) [1, -5] 0 0 none none).lastDelta = some 1
      ∧ (runLoop ((1/60) * 60) [1, -5] 0 0 none none).lastReq = some (-5))
    ∧ (((1 : ℚ) ≠ 0
      ∧ (RunStats.mk (1/60) 1 1 0 5 5).seconds_behind = max (-(-5 : ℚ)) 0
      ∧ (RunStats.mk (1/60) 1 1 0 5 5).percentage_behind
          = (RunStats.mk (1/60) 1 1 0 5 5).seconds_behind / 1
      ∧ (RunStats.mk (1/60) 1 1 0 5 5).run_time_minutes = 1 / 60
      ∧ (RunStats.mk (1/60) 1 1 0 5 5).num_sent_requests
          = (runLoop ((1/60) * 60) [1, -5] 0 0 none none).numSent
      ∧ (RunStats.mk (1/60) 1 1 0 5 5).average_requests_per_second
          = (((RunStats.mk (1/60) 1 1 0 5 5).num_sent_requests : ℕ) : ℚ) / 1
      ∧ (RunStats.mk (1/60) 1 1 0 5 5).num_outstanding_requests = 0)
    ∧ (runModel (1/60) [1, -5] 0).map (fun st => st.percentage_behind)
        = some 5 ∧ (1 : ℚ) < 5) := by
  have hrun : runModel (1/60) [1, -5] 0 = some ⟨1/60, 1, 1, 0, 5, 5⟩ := by
    norm_num [runModel, runLoop]
  have hld : (runLoop ((1/60) * 60) [1, -5] 0 0 none none).lastDelta
      = some 1 := by
    norm_num [runLoop]
  have hlr : (runLoop ((1/60) * 60) [1, -5] 0 0 none none).lastReq
      = some (-5) := by
    norm_num [runLoop]
  exact ⟨⟨hrun, hld, hlr⟩,
    run_stats_formulas (1/60) [1, -5] 0 ⟨1/60, 1, 1, 0, 5, 5⟩ 1 (-5) hrun hld hlr⟩

/-- The exceptions relevant to the dispatch/drain machinery:
`asyncio.CancelledError`, a transport-level error raised inside
`session.post` (e.g. `aiohttp.ClientError`), or any other exception. -/
inductive PyError where
  | cancelledError
  | transportError
  | otherError
deriving DecidableEq

/-- The `Response` class: `status` and the parsed JSON body.  Only the
numeric top-level entries of the body matter to the accumulator (it reads
`json['took']`), so the body is an association list of those. -/
structure Response where
  status : ℤ
  json : List (String × ℚ)
deriving DecidableEq

/-- The lookup `response.json['took']`; `none` models the `KeyError` when
the key is absent. -/
def Response.took (r : Response) : Option ℚ := r.json.lookup "took"

/-- The possible fates of one dispatched unit (a task running
`LoadTester._fetch`): the POST completed and `_fetch` returned
`Response(status=response.status, json=await response.json())`; the
transport raised; or the task was cancelled before completion. -/
inductive FetchOutcome where
  | completed (status : ℤ) (body : List (String × ℚ))
  | transportFailed
  | cancelled
deriving DecidableEq

/-- `fut.result()` for a `_fetch` task: returns the `Response` built by
`_fetch` on normal completion, re-raises the transport exception if
`_fetch` raised, and raises `asyncio.CancelledError` if the task was
cancelled. -/
def futureResult : FetchOutcome → Except PyError Response
  | .completed st body => .ok ⟨st, body⟩
  | .transportFailed => .error .transportError
  | .cancelled => .error .cancelledError

/-- `LoadTester._callback(fut)` observed at the sink boundary:
`Except.ok (some r)` means `process_response_information` was invoked
exactly once, with `r`; `Except.ok none` means the callback returned
without invoking the sink (the `except asyncio.CancelledError: pass` arm);
`Except.error e` means `e` escaped the callback and the sink was not
invoked. -/
def callbackSinkInvocation (out : FetchOutcome) :
    Except PyError (Option Response) :=
  match futureResult out with
  | .ok r => .ok (some r)
  | .error .cancelledError => .ok none
  | .error e => .error e

/-- C7 formalised as stated: every unit that runs to completion — transport
success or transport failure alike — invokes the sink exactly once with a
normalized response, while a cancelled unit produces no sink invocation. -/
def sinkInvocationClaim : Prop :=
  ∀ out : FetchOutcome,
    (out ≠ .cancelled → ∃ r, callbackSinkInvocation out = .ok (some r))
    ∧ (out = .cancelled → callbackSinkInvocation out = .ok none)

/-- C7 is false on the code at the concrete outcome `transportFailed`: the
callback catches only `asyncio.CancelledError`, so the transport exception
re-raised by `fut.result()` escapes and the sink is never invoked. -/
theorem sink_contract_counterexample : ¬ sinkInvocationClaim := by
  intro h
  obtain ⟨r, hr⟩ := (h .transportFailed).1 (by simp)
  have hact : callbackSinkInvocation .transportFailed
      = .error .transportError := rfl
  rw [hact] at hr
  exact Except.noConfusion hr

/-- C7 amended: a unit whose transport **succeeded** invokes the sink
exactly once with the normalized `Response(status, parsed_body)`; a
cancelled unit produces no sink invocation (its `CancelledError` is
swallowed); and a unit whose transport **failed** also produces no sink
invocation — the failure escapes the callback, which catches only
`CancelledError`. -/
theorem sink_invocation_amended :
    (∀ (st : ℤ) (body : List (String × ℚ)),
      callbackSinkInvocation (.completed st body) = .ok (some ⟨st, body⟩))
    ∧ callbackSinkInvocation .cancelled = .ok none
    ∧ callbackSinkInvocation .transportFailed = .error .transportError :=
  ⟨fun _ _ => rfl, rfl, rfl⟩

/-- The state of one entry of `pending_tasks` at the moment the draining
loop cancels and awaits it: still pending (so the cancel takes effect and
the `await` raises `CancelledError`); already completed naturally (the
cancel is a no-op and the `await` returns its result); or already failed
(the `await` re-raises its exception). -/
inductive TaskState where
  | stillPending
  | completedNaturally (r : Response)
  | failedWith (e : PyError)
deriving DecidableEq

/-- `await task` immediately after `task.cancel()`. -/
def awaitAfterCancel : TaskState → Except PyError Response
  | .stillPending => .error .cancelledError
  | .completedNaturally r => .ok r
  | .failedWith e => .error e

/-- One iteration of the draining loop of `LoadTester.run`:
`task.cancel(); try: await task; except asyncio.CancelledError: pass`. -/
def drainOne (t : TaskState) : Except PyError Unit :=
  match awaitAfterCancel t with
  | .ok _ => .ok ()
  | .error .cancelledError => .ok ()
  | .error e => .error e

/-- The draining loop over the whole `pending_tasks` list; the first
exception other than `CancelledError` propagates out of `run`. -/
def drainAll : List TaskState → Except PyError Unit
  | [] => .ok ()
  | t :: ts =>
    match drainOne t with
    | .ok _ => drainAll ts
    | .error e => .error e

/-- A drained unit that raises something other than `CancelledError` when
awaited makes `drainOne` re-raise it. -/
lemma drainOne_failedWith (e : PyError) (he : e ≠ PyError.cancelledError) :
    drainOne (.failedWith e) = .error e := by
  cases e with
  | cancelledError => exact absurd rfl he
  | transportError => rfl
  | otherError => rfl

/-- Draining a prefix whose every unit drains silently just moves on. -/
lemma drainAll_ok_append (pre rest : List TaskState)
    (hpre : ∀ t ∈ pre, drainOne t = .ok ()) :
    drainAll (pre ++ rest) = drainAll rest := by
  induction pre with
  | nil => rfl
  | cons t ts ih =>
    have ht : drainOne t = .ok () := hpre t (List.mem_cons_self t ts)
    simp only [List.cons_append, drainAll, ht]
    exact ih (fun x hx => hpre x (List.mem_cons_of_mem t hx))

/-- C8: during draining, the `CancelledError` raised by a unit that was
still pending when cancelled is caught and suppressed silently; a unit
that had already completed naturally is a no-op, not an error; and any
other exception raised while awaiting a cancelled unit propagates out of
the whole draining loop (and hence out of `run`). -/
theorem drain_error_semantics (r0 : Response) (e0 : PyError)
    (pre post : List TaskState)
    (he0 : e0 ≠ PyError.cancelledError)
    (hpre : ∀ t ∈ pre, drainOne t = .ok ()) :
    drainOne .stillPending = .ok ()
    ∧ drainOne (.completedNaturally r0) = .ok ()
    ∧ drainOne (.failedWith e0) = .error e0
    ∧ drainAll (pre ++ .failedWith e0 :: post) = .error e0 := by
  refine ⟨rfl, rfl, drainOne_failedWith e0 he0, ?_⟩
  rw [drainAll_ok_append pre _ hpre]
  simp only [drainAll, drainOne_failedWith e0 he0]

/-- Witness for C8: one still-pending unit drained silently, followed by a
unit whose `await` raises a transport error, which propagates. -/
theorem drain_error_semantics_witness :
    (PyError.transportError ≠ PyError.cancelledError
      ∧ (∀ t ∈ [TaskState.stillPending], drainOne t = .ok ()))
    ∧ (drainOne .stillPending = .ok ()
      ∧ drainOne (.completedNaturally ⟨200, []⟩) = .ok ()
      ∧ drainOne (.failedWith .transportError) = .error .transportError
      ∧ drainAll ([TaskState.stillPending]
            ++ .failedWith .transportError :: [])
          = .error .transportError) := by
  have hpre : ∀ t ∈ [TaskState.stillPending], drainOne t = .ok () := by
    intro t ht
    rw [List.mem_singleton] at ht
    subst ht
    rfl
  exact ⟨⟨by decide, hpre⟩,
    drain_error_semantics ⟨200, []⟩ .transportError [TaskState.stillPending]
      [] (by decide) hpre⟩

/-- `ElasticsearchResponseAccumulator` state: the running total of `took`
times of successful responses, and the multiset of processed status codes
underlying the `Counter` (`completion_status_counts[s]` is the count of
`s` in `statuses`). -/
structure Accumulator where
  total_took_time : ℚ
  statuses : List ℤ
deriving DecidableEq

/-- `ElasticsearchResponseAccumulator.__init__`. -/
def emptyAccumulator : Accumulator := ⟨0, []⟩

/-- The `Counter` read out: occurrences of each status code. -/
def Accumulator.histogram (acc : Accumulator) (s : ℤ) : ℕ :=
  acc.statuses.count s

/-- `process_response_information(response)`: always update
`completion_status_counts` with the status; when the status is exactly
`200`, additionally add `response.json['took']` to `total_took_time`
(`none` models the `KeyError` when a 200 body lacks `took`). -/
def processResponseInformation (acc : Accumulator) (r : Response) :
    Option Accumulator :=
  let acc1 : Accumulator := ⟨acc.total_took_time, r.status :: acc.statuses⟩
  if r.status = 200 then
    match r.took with
    | some t => some ⟨acc1.total_took_time + t, acc1.statuses⟩
    | none => none
  else some acc1

/-- Feeding a whole list of responses through
`process_response_information`, as the completion callbacks do one by
one. -/
def processAll : Accumulator → List Response → Option Accumulator
  | acc, [] => some acc
  | acc, r :: rs =>
    match processResponseInformation acc r with
    | none => none
    | some a => processAll a rs

/-- The dictionary `get_summary()` returns. -/
structure Summary where
  completion_status_counts : ℤ → ℕ
  average_time_per_successful_request : ℚ

/-- `get_summary()`: the histogram together with
`total_took_time / completion_status_counts[200]`; `none` models the
`ZeroDivisionError` when the success count is zero. -/
def getSummary (acc : Accumulator) : Option Summary :=
  if acc.statuses.count 200 = 0 then none
  else some ⟨acc.histogram,
    acc.total_took_time / (acc.statuses.count 200 : ℚ)⟩

/-- Total `took` of the successful (status 200) responses of a list. -/
def sumTook (rs : List Response) : ℚ :=
  ((rs.filter (fun r => r.status == 200)).map (fun r => r.took.getD 0)).sum

/-- Effect of one `process_response_information` call that did not raise:
the status is prepended to the histogram multiset, and the total grows by
the `took` value exactly when the status is `200`. -/
lemma processResponseInformation_eq (acc : Accumulator) (r : Response)
    (a : Accumulator) (h : processResponseInformation acc r = some a) :
    a.statuses = r.status :: acc.statuses
    ∧ a.total_took_time = acc.total_took_time
        + (if r.status = 200 then r.took.getD 0 else 0) := by
  by_cases h200 : r.status = 200
  · rcases ht : r.took with _ | t
    · rw [processResponseInformation, if_pos h200, ht] at h
      exact Option.noConfusion h
    · rw [processResponseInformation, if_pos h200, ht,
        Option.some_inj] at h
      subst h
      refine ⟨rfl, ?_⟩
      simp [h200, ht]
  · rw [processResponseInformation, if_neg h200, Option.some_inj] at h
    rw [← h, if_neg h200]
    exact ⟨rfl, by simp⟩

/-- `sumTook` unfolds over a cons cell. -/
lemma sumTook_cons (r : Response) (rs : List Response) :
    sumTook (r :: rs)
      = (if r.status = 200 then r.took.getD 0 else 0) + sumTook rs := by
  by_cases h200 : r.status = 200
  · simp [sumTook, List.filter_cons, h200]
  · simp [sumTook, List.filter_cons, h200]

/-- Processing a list of responses adds one histogram count per response
status and the successful `took` values to the total. -/
lemma processAll_characterisation (rs : List Response) :
    ∀ (acc a : Accumulator), processAll acc rs = some a →
      (∀ s : ℤ, a.histogram s
          = acc.histogram s + (rs.map (fun r => r.status)).count s)
      ∧ a.total_took_time = acc.total_took_time + sumTook rs := by
  induction rs with
  | nil =>
    intro acc a h
    rw [processAll, Option.some_inj] at h
    subst h
    simp [sumTook]
  | cons r rest ih =>
    intro acc a h
    rw [processAll] at h
    rcases hstep : processResponseInformation acc r with _ | a1
    · rw [hstep] at h
      exact Option.noConfusion h
    · rw [hstep] at h
      obtain ⟨hst, htot⟩ := processResponseInformation_eq acc r a1 hstep
      obtain ⟨ih1, ih2⟩ := ih a1 a h
      constructor
      · intro s
        rw [ih1 s]
        unfold Accumulator.histogram
        rw [hst]
        simp only [List.map_cons, List.count_cons]
        omega
      · rw [ih2, htot, sumTook_cons]
        ring

/-- C6: feeding the responses `[200 took 10, 200 took 20, 500]` to the
sink and asking for the summary yields the histogram
`{200: 2, 500: 1}` (any other status counting 0) and average success
latency `(10+20)/2 = 15`; in general a processed batch produces a
histogram counting every processed status, a total equal to the sum of
successful `took` values, and — when at least one success occurred — an
average equal to that sum divided by the success count. -/
theorem accumulation_correctness (rs : List Response) (a : Accumulator)
    (s : ℤ) (h : processAll emptyAccumulator rs = some a) :
    ((processAll emptyAccumulator
        [⟨200, [("took", 10)]⟩, ⟨200, [("took", 20)]⟩, ⟨500, []⟩]).bind
          getSummary).map
        (fun sm => (sm.completion_status_counts 200,
          sm.completion_status_counts 500,
          sm.completion_status_counts 404,
          sm.average_time_per_successful_request))
      = some (2, 1, 0, 15)
    ∧ a.histogram s = (rs.map (fun r => r.status)).count s
    ∧ a.total_took_time = sumTook rs
    ∧ (a.histogram 200 ≠ 0 →
        getSummary a
          = some ⟨a.histogram, sumTook rs / (a.histogram 200 : ℚ)⟩) := by
  obtain ⟨hh, ht⟩ := processAll_characterisation rs emptyAccumulator a h
  have hh0 : ∀ u : ℤ, a.histogram u = (rs.map (fun r => r.status)).count u := by
    intro u
    rw [hh u]
    simp [emptyAccumulator, Accumulator.histogram]
  have ht0 : a.total_took_time = sumTook rs := by
    rw [ht]
    simp [emptyAccumulator]
  refine ⟨?_, hh0 s, ht0, ?_⟩
  · norm_num [processAll, processResponseInformation, Response.took,
      getSummary, Accumulator.histogram, emptyAccumulator, List.lookup,
      List.count_cons]
  · intro hnz
    rw [getSummary, if_neg (by simpa [Accumulator.histogram] using hnz),
      ht0]
    rfl

/-- Witness for C6: the batch `[200 took 10]` produces histogram count 1
at 200 and average 10. -/
theorem accumulation_correctness_witness :
    processAll emptyAccumulator [⟨200, [("took", 10)]⟩] = some ⟨10, [200]⟩
    ∧ (((processAll emptyAccumulator
        [⟨200, [("took", 10)]⟩, ⟨200, [("took", 20)]⟩, ⟨500, []⟩]).bind
          getSummary).map
        (fun sm => (sm.completion_status_counts 200,
          sm.completion_status_counts 500,
          sm.completion_status_counts 404,
          sm.average_time_per_successful_request))
      = some (2, 1, 0, 15)
    ∧ (Accumulator.mk 10 [200]).histogram 200
        = (([⟨200, [("took", 10)]⟩] : List Response).map
            (fun r => r.status)).count 200
    ∧ (Accumulator.mk 10 [200]).total_took_time
        = sumTook [⟨200, [("took", 10)]⟩]
    ∧ ((Accumulator.mk 10 [200]).histogram 200 ≠ 0 →
        getSummary ⟨10, [200]⟩
          = some ⟨(Accumulator.mk 10 [200]).histogram,
              sumTook [⟨200, [("took", 10)]⟩]
                / ((Accumulator.mk 10 [200]).histogram 200 : ℚ)⟩)) := by
  have hp : processAll emptyAccumulator [⟨200, [("took", 10)]⟩]
      = some ⟨10, [200]⟩ := by
    norm_num [processAll, processResponseInformation, Response.took,
      emptyAccumulator, List.lookup]
  exact ⟨hp, accumulation_correctness [⟨200, [("took", 10)]⟩] ⟨10, [200]⟩
    200 hp⟩

/-- C5 formalised as stated: calling `get_summary` on an accumulator with a
zero success count is a defined, reported condition — it yields a value
(sentinel or marker) instead of crashing. -/
def summaryNoCrashClaim : Prop :=
  ∀ acc : Accumulator, acc.histogram 200 = 0 → (getSummary acc).isSome

/-- C5 is false on the code at a concrete input: after processing exactly
one response with status 500 (zero successes), `get_summary` divides
`total_took_time` by `completion_status_counts[200] = 0` and raises
`ZeroDivisionError` (modelled `none`). -/
theorem summary_no_crash_counterexample : ¬ summaryNoCrashClaim := by
  intro h
  have hacc : processAll emptyAccumulator [⟨500, []⟩] = some ⟨0, [500]⟩ := by
    simp [processAll, processResponseInformation, emptyAccumulator]
  have h0 : (⟨0, [500]⟩ : Accumulator).histogram 200 = 0 := by
    simp [Accumulator.histogram]
  have hs := h ⟨0, [500]⟩ h0
  rw [show getSummary ⟨0, [500]⟩ = none by
    simp [getSummary]] at hs
  simp at hs

/-- C5 amended: when zero successful responses have been processed,
`get_summary` is **not** a defined, reported condition — the division by
`completion_status_counts[200] = 0` raises `ZeroDivisionError` (modelled
`none`), and guarding that case is left entirely to the caller. -/
theorem summary_zero_success_raises (acc : Accumulator)
    (h : acc.histogram 200 = 0) : getSummary acc = none := by
  rw [getSummary, if_pos]
  exact h

/-- Witness for C5's amended theorem: the accumulator holding one processed
500 response. -/
theorem summary_zero_success_raises_witness :
    (⟨0, [500]⟩ : Accumulator).histogram 200 = 0
    ∧ getSummary ⟨0, [500]⟩ = none :=
  ⟨by simp [Accumulator.histogram],
    summary_zero_success_raises ⟨0, [500]⟩ (by simp [Accumulator.histogram])⟩

/-- C10: every processed response bumps the status histogram at exactly its
own status code, but the latency total grows (by the body's `took` value)
only when the status equals exactly `200`; any other status — the concrete
conjunct exhibits `201`, another 2xx code, with a `took` present — leaves
the total unchanged. -/
theorem process_response_semantics (acc : Accumulator) (r : Response)
    (a : Accumulator) (s : ℤ)
    (h : processResponseInformation acc r = some a) :
    a.histogram s = acc.histogram s + (if s = r.status then 1 else 0)
    ∧ (r.status = 200 →
        a.total_took_time = acc.total_took_time + r.took.getD 0)
    ∧ (r.status ≠ 200 → a.total_took_time = acc.total_took_time)
    ∧ processResponseInformation emptyAccumulator ⟨201, [("took", 99)]⟩
        = some ⟨0, [201]⟩ := by
  obtain ⟨hst, htot⟩ := processResponseInformation_eq acc r a h
  refine ⟨?_, ?_, ?_, ?_⟩
  · unfold Accumulator.histogram
    rw [hst, List.count_cons]
    rcases eq_or_ne s r.status with he | he
    · simp [he]
    · simp [he, Ne.symm he]
  · intro h200
    rw [htot, if_pos h200]
  · intro h200
    rw [htot, if_neg h200]
    simp
  · simp [processResponseInformation, emptyAccumulator]

/-- Witness for C10: processing a 404 response (body irrelevant) on top of
an accumulator that already saw one success. -/
theorem process_response_semantics_witness :
    processResponseInformation ⟨7, [200]⟩ ⟨404, []⟩ = some ⟨7, [404, 200]⟩
    ∧ ((Accumulator.mk 7 [404, 200]).histogram 404
          = (Accumulator.mk 7 [200]).histogram 404
            + (if (404 : ℤ) = 404 then 1 else 0)
      ∧ ((404 : ℤ) = 200 →
          (Accumulator.mk 7 [404, 200]).total_took_time
            = (Accumulator.mk 7 [200]).total_took_time
              + (Response.mk 404 []).took.getD 0)
      ∧ ((404 : ℤ) ≠ 200 →
          (Accumulator.mk 7 [404, 200]).total_took_time
            = (Accumulator.mk 7 [200]).total_took_time)
      ∧ processResponseInformation emptyAccumulator ⟨201, [("took", 99)]⟩
          = some ⟨0, [201]⟩) := by
  have hp : processResponseInformation ⟨7, [200]⟩ ⟨404, []⟩
      = some ⟨7, [404, 200]⟩ := by
    simp [processResponseInformation]
  exact ⟨hp, process_response_semantics ⟨7, [200]⟩ ⟨404, []⟩ ⟨7, [404, 200]⟩
    404 hp⟩

end LoadReplay
